import Mathlib

/-!
Shallow embedding of the Xo_api websocket tic-tac-toe server
(src/src/main.rs) and verification of its specification claims.

Modelling conventions:
* `HashSet String` and the key set of `HashMap String _` are modelled as
  duplicate-free `List String` (with `List.insert` / `List.erase` mirroring
  the set API).
* The `games : HashMap<String, Room>` table is modelled as a function
  `String → Option Room`; `entry(..).or_insert_with(..)` and in-place
  mutation become pointwise updates.
* A Rust panic (an out-of-bounds `Vec` index, or `.unwrap()` on an `Err`)
  is modelled by the operation returning `none`.
* Channel sends performed by the coordinator are collected in an output list
  of pairs (receiving player id, message); `send_to_player` emits nothing
  when the player has no registered session, mirroring `sessions.get`
  returning `None`.
-/

/-- Rooms (src lines 41-47): id, member set, 3x3 board of cells, turn flag. -/
structure Room where
  game_id : String
  players : List String
  board : List (List String)
  x_turn : Bool
deriving DecidableEq, Repr

/-- Events sent to clients (src lines 15-21). -/
inductive ClientMessage where
  | Id (s : String)
  | GameState (r : Room)
  | Error (s : String)
  | YourTurn (b : Bool)
deriving DecidableEq, Repr

/-- Commands sent to the coordinator (src lines 23-39). `Connect` carries a
channel in the source; the model identifies the channel by the player id. -/
inductive ServerMessage where
  | Connect (id : String)
  | Disconnect (id : String)
  | JoinGame (player_id : String) (game_id : String)
  | MakeMove (player_id : String) (game_id : String) (position : List Nat)
deriving DecidableEq, Repr

/-- Coordinator state (src lines 57-60): the session registry (modelled by
its key set, the player ids holding a registered outbound channel) and the
room table. -/
structure GameServer where
  sessions : List String
  games : String → Option Room

/-- `GameServer::default()` (src lines 62-69). -/
def initialServer : GameServer := ⟨[], fun _ => none⟩

/-- The fresh room built by `or_insert_with` (src lines 114-119). -/
def newRoom (game_id : String) : Room :=
  ⟨game_id, [], List.replicate 3 (List.replicate 3 "_"), true⟩

/-- `GameServer::send_to_player` (src lines 72-79): sends only when the
player id is present in `sessions`. -/
def GameServer.send_to_player (s : GameServer) (player_id : String)
    (msg : ClientMessage) : List (String × ClientMessage) :=
  if player_id ∈ s.sessions then [(player_id, msg)] else []

/-- `GameServer::notify_game_state` (src lines 81-92): sends the room state
and a turn notice `x_turn == (player_id == "X")` to every member. -/
def GameServer.notify_game_state (s : GameServer) (game : Room) :
    List (String × ClientMessage) :=
  game.players.foldr
    (fun pid acc =>
      s.send_to_player pid (ClientMessage.GameState game) ++
      s.send_to_player pid (ClientMessage.YourTurn (game.x_turn == (pid == "X"))) ++
      acc)
    []

/-- The cell of a board at a row and column, `none` when out of range. -/
def cellAt (board : List (List String)) (row col : Nat) : Option String :=
  (board.get? row).bind fun r => r.get? col

/-- `GameServer::handle` (src lines 94-160), one command processed
atomically.  Returns the new state and the list of sends, or `none` when the
source panics.  Notes tied to the source:
* `Connect` (lines 96-100): inserts the session; the confirmation
  `sender.send(ClientMessage::Id(id))` builds a future that is never awaited
  or spawned, so no `Id` event is actually enqueued and the model emits
  nothing.
* `Disconnect` (lines 102-110): drops the session entry and erases the id
  from every room's member set.
* `JoinGame` (lines 112-128): `entry(..).or_insert_with(..)` then a
  capacity-2 check; on the full branch the room already existed (a fresh
  room has no members), so the table is unchanged.
* `MakeMove` (lines 130-158): an unknown room id falls through silently;
  then membership, turn, position-shape, and occupancy checks in source
  order.  `game.board[*row][*col]` indexes unchecked, so an out-of-range
  row or column panics (`none`). -/
def GameServer.handle (s : GameServer) :
    ServerMessage → Option (GameServer × List (String × ClientMessage))
  | ServerMessage.Connect id =>
      some ({ s with sessions := s.sessions.insert id }, [])
  | ServerMessage.Disconnect id =>
      some ({ s with
                sessions := s.sessions.erase id,
                games := fun g => (s.games g).map
                  (fun room => { room with players := room.players.erase id }) },
            [])
  | ServerMessage.JoinGame player_id game_id =>
      let game := (s.games game_id).getD (newRoom game_id)
      if game.players.length < 2 then
        let game₂ := { game with players := game.players.insert player_id }
        let s₂ := { s with
          games := fun g => if g = game_id then some game₂ else s.games g }
        some (s₂, s₂.notify_game_state game₂)
      else
        some (s, s.send_to_player player_id (ClientMessage.Error "Game is full"))
  | ServerMessage.MakeMove player_id game_id position =>
      match s.games game_id with
      | none => some (s, [])
      | some game =>
        if player_id ∈ game.players then
          let is_x : Bool := player_id == "X"
          if game.x_turn == is_x then
            match position with
            | [row, col] =>
              match game.board.get? row with
              | none => none
              | some r =>
                match r.get? col with
                | none => none
                | some cell =>
                  if cell ≠ "_" then
                    some (s, s.send_to_player player_id
                               (ClientMessage.Error "Invalid move"))
                  else
                    let mark : String := if is_x then "X" else "O"
                    let game₂ := { game with
                      board := game.board.set row (r.set col mark),
                      x_turn := !game.x_turn }
                    let s₂ := { s with
                      games := fun g =>
                        if g = game_id then some game₂ else s.games g }
                    some (s₂, s₂.notify_game_state game₂)
            | _ =>
              some (s, s.send_to_player player_id
                         (ClientMessage.Error "Invalid move"))
          else
            some (s, s.send_to_player player_id
                       (ClientMessage.Error "Not your turn"))
        else
          some (s, s.send_to_player player_id
                     (ClientMessage.Error "Not in game"))

/-- The coordinator loop of `start_game_server` (src lines 163-174): drain
the inbound queue, one `handle` call per command; a panic in `handle` aborts
the loop, so later commands are never processed. -/
def run (s : GameServer) : List ServerMessage → Option GameServer
  | [] => some s
  | c :: cs =>
      match s.handle c with
      | none => none
      | some (s₁, _) => run s₁ cs

/-- The decoded shape of an inbound text payload (src lines 49-55), the
result of `serde_json::from_str::<WsMessage>`.  The wire-level JSON parse
itself is the external codec; the model takes the parse result. -/
structure WsMessage where
  message_type : String
  player : Option String
  game_id : Option String
  move : Option (List Nat)
deriving DecidableEq, Repr

/-- Inbound websocket frames as matched by the frame service (src lines
231-273).  `Text` carries the `serde_json` parse result of its payload
(`none` = payload did not parse). -/
inductive Frame where
  | Ping (m : String)
  | Pong (m : String)
  | Text (parsed : Option WsMessage)
  | Close
  | Other
deriving DecidableEq, Repr

/-- Outbound websocket messages the frame service replies with. -/
inductive WsReply where
  | Pong (m : String)
  | Close
deriving DecidableEq, Repr

/-- One invocation of the frame service closure (src lines 227-275).
Returns `some (reply, hbReset)` where `reply` is the frame written back and
`hbReset` records the Pong arm refreshing the last-seen instant, or `none`
when the closure panics.  The `JoinGame` / `MakeMove` commands built in the
Text arm are sent with `unbounded_send` on the channel created at line 216
(`let (tx, _) = futures::channel::mpsc::unbounded();`), whose receiver is
dropped at creation; such a send returns `Err` and the `.unwrap()` panics,
so both dispatch arms are `none`.  The closure never captures the `server`
channel produced by `start_game_server`, so no frame ever delivers a command
to the coordinator. -/
def frameService : Frame → Option (Option WsReply × Bool)
  | Frame.Ping m => some (some (WsReply.Pong m), false)
  | Frame.Pong _ => some (none, true)
  | Frame.Text none => some (none, false)
  | Frame.Text (some m) =>
      match m.message_type with
      | "join" =>
          match m.player, m.game_id with
          | some _, some _ => none
          | _, _ => some (none, false)
      | "move" =>
          match m.player, m.game_id, m.move with
          | some _, some _, some _ => none
          | _, _, _ => some (none, false)
      | _ => some (none, false)
  | Frame.Close => some (some WsReply.Close, false)
  | Frame.Other => some (none, false)

/-- JSON string literal (ids and cells in this system contain no characters
that `serde_json` would escape). -/
def jsonString (s : String) : String := "\"" ++ s ++ "\""

/-- JSON array of string literals. -/
def jsonStringArray (xs : List String) : String :=
  "[" ++ String.intercalate "," (xs.map jsonString) ++ "]"

/-- The `serde_json::to_string` form of a `Room` (derive(Serialize) on src
lines 41-47, field order as declared; the member set serializes in the
model's list order). -/
def roomToJson (r : Room) : String :=
  "\x7b\"game_id\":" ++ jsonString r.game_id ++
  ",\"players\":" ++ jsonStringArray r.players ++
  ",\"board\":[" ++ String.intercalate "," (r.board.map jsonStringArray) ++ "]" ++
  ",\"x_turn\":" ++ (if r.x_turn then "true" else "false") ++ "\x7d"

/-- The turn-notice text built by the write loop (src line 207). -/
def turnJson (is_turn : Bool) : String :=
  "\x7b\"type\":\"turn\",\"is_turn\":" ++
    (if is_turn then "true" else "false") ++ "\x7d"

/-- The body of the write loop (src lines 198-211): each event drained from
the player's outbound queue is matched; `GameState` is serialized to JSON
and `YourTurn` to the turn-notice text, both written to the websocket as
text frames; every other event (`Id`, `Error`) falls to the catch-all arm
and is discarded (`none` = no frame written). -/
def encodeOutbound : ClientMessage → Option String
  | ClientMessage.GameState r => some (roomToJson r)
  | ClientMessage.YourTurn b => some (turnJson b)
  | _ => none

/-- Modelled from the spec: the HeartbeatMonitor of spec section 4.3.  The
source keeps only the monitor's last-seen state and its refresh on Pong
(`WsState.hb`, src lines 176-180 and 233-236); the periodic check loop that
compares the interval since last-seen against the timeout and closes the
connection is absent from src/.  The state is the last-seen time (abstract
time units) and whether this monitor has already closed its connection. -/
structure HbMonitor where
  lastSeen : Nat
  closed : Bool
deriving DecidableEq, Repr

/-- Modelled from the spec: the fixed timeout, reference 10 time units. -/
def hbTimeoutUnits : Nat := 10

/-- Modelled from the spec: one scheduled check at time `now` with no
inbound activity since `lastSeen`.  If the connection is already closed the
check does nothing; otherwise, when the interval since last-seen exceeds the
timeout, it closes the connection and triggers the disconnect path (the
returned flag). -/
def hbCheck (m : HbMonitor) (now : Nat) : HbMonitor × Bool :=
  if m.closed then (m, false)
  else if hbTimeoutUnits < now - m.lastSeen then
    ({ m with closed := true }, true)
  else (m, false)

/-- Modelled from the spec: repeated scheduled checks at the given times,
counting how many of them fire the disconnect path. -/
def hbRunChecks (m : HbMonitor) : List Nat → HbMonitor × Nat
  | [] => (m, 0)
  | t :: ts =>
      let p := hbCheck m t
      let q := hbRunChecks p.1 ts
      (q.1, (if p.2 then 1 else 0) + q.2)

/-- Whether a command is a move the coordinator accepts against state `s`
for the room named `g`: the exact success conditions of the `MakeMove` arm
of `GameServer.handle` (membership, turn match, two-component position,
empty target cell), restricted to the room `g`. -/
def acceptedMove (s : GameServer) (g : String) : ServerMessage → Bool
  | ServerMessage.MakeMove player_id game_id position =>
      match s.games game_id with
      | none => false
      | some game =>
          decide (game_id = g) &&
          decide (player_id ∈ game.players) &&
          (game.x_turn == (player_id == "X")) &&
          (match position with
           | [row, col] =>
               match cellAt game.board row col with
               | some cell => cell == "_"
               | none => false
           | _ => false)
  | _ => false

/-- The number of accepted moves for room `g` along a command sequence,
counted against the evolving coordinator state (counting stops if the
coordinator panics). -/
def acceptedCount (s : GameServer) (g : String) : List ServerMessage → Nat
  | [] => 0
  | c :: cs =>
      (if acceptedMove s g c then 1 else 0) +
      (match s.handle c with
       | some p => acceptedCount p.1 g cs
       | none => 0)

/-- A blank 3x3 board, as built on room creation. -/
def boardBlank : List (List String) := List.replicate 3 (List.replicate 3 "_")

/-- A state with one room `g` whose only member is the player named `X`,
on its initial turn: the connected witness state for the out-of-bounds
panic. -/
def sC5 : GameServer :=
  ⟨["X"], fun g => if g = "g" then some ⟨"g", ["X"], boardBlank, true⟩ else none⟩

/-- A two-member room neither of whose members is named `X`. -/
def roomNoX : Room := ⟨"g", ["a", "b"], boardBlank, true⟩

/-- A room whose cell (0,0) is already occupied, with members `X` and `o`
and the turn flag giving the move to `o`. -/
def roomOccupied : Room :=
  ⟨"g", ["X", "o"], [["X", "_", "_"], ["_", "_", "_"], ["_", "_", "_"]], false⟩

/-- The coordinator state holding `roomOccupied`, both members connected. -/
def sC10 : GameServer :=
  ⟨["X", "o"], fun g => if g = "g" then some roomOccupied else none⟩

/-- The coordinator state holding an unknown-room-free registry with one
connected player `a`: the state for the unknown-room `MakeMove`. -/
def sC4 : GameServer := ⟨["a"], fun _ => none⟩

/-- The state reached from `sC5` by the accepted move `X` at (0,0). -/
def sC5after : GameServer :=
  ⟨["X"], fun g => if g = "g" then
      some ⟨"g", ["X"], [["X", "_", "_"], ["_", "_", "_"], ["_", "_", "_"]], false⟩
    else sC5.games g⟩

/-- The state reached from `sC10` by the accepted move `o` at (0,1). -/
def sC10after : GameServer :=
  ⟨["X", "o"], fun g => if g = "g" then
      some ⟨"g", ["X", "o"],
            [["X", "O", "_"], ["_", "_", "_"], ["_", "_", "_"]], true⟩
    else sC10.games g⟩

/-- The state reached from the initial state by `JoinGame a g`. -/
def sC8after : GameServer :=
  ⟨[], fun g => if g = "g" then some ⟨"g", ["a"], boardBlank, true⟩
    else initialServer.games g⟩

/-- A state whose room `g` already has two members, with a third connected
player `c`. -/
def sFull : GameServer :=
  ⟨["a", "b", "c"], fun g => if g = "g" then
      some ⟨"g", ["a", "b"], boardBlank, true⟩ else none⟩

/-- Helper: once the monitor has closed its connection, further scheduled
checks never fire again. -/
lemma hbRunChecks_closed (m : HbMonitor) (ts : List Nat) (h : m.closed = true) :
    hbRunChecks m ts = (m, 0) := by
  induction ts with
  | nil => rfl
  | cons t ts ih => simp [hbRunChecks, hbCheck, h, ih]

/-- C1: refuted by the source.  A well-formed `join` or `move` text frame
makes the frame service panic instead of forwarding the command: the
service sends the built command with `unbounded_send(..).unwrap()` on the
channel created at src line 216, whose receiver is dropped at creation, and
it never holds the channel created by `start_game_server`; so no command is
forwarded and the connection task aborts. -/
theorem xo_c1_bug : ∀ m : WsMessage,
    (m.message_type = "join" → m.player.isSome → m.game_id.isSome →
      frameService (Frame.Text (some m)) = none) ∧
    (m.message_type = "move" → m.player.isSome → m.game_id.isSome →
      m.move.isSome → frameService (Frame.Text (some m)) = none) := by
  intro m
  obtain ⟨mt, p, g, mv⟩ := m
  constructor
  · intro ht hp hg
    subst ht
    cases p with
    | none => simp at hp
    | some a =>
      cases g with
      | none => simp at hg
      | some b => rfl
  · intro ht hp hg hm
    subst ht
    cases p with
    | none => simp at hp
    | some a =>
      cases g with
      | none => simp at hg
      | some b =>
        cases mv with
        | none => simp at hm
        | some v => rfl

/-- Witness for C1 at the two concrete well-formed frames. -/
theorem xo_c1_bug_witness :
    frameService (Frame.Text (some ⟨"join", some "a", some "g", none⟩)) = none ∧
    frameService (Frame.Text (some ⟨"move", some "a", some "g", some [0, 0]⟩))
      = none :=
  ⟨(xo_c1_bug ⟨"join", some "a", some "g", none⟩).1 rfl rfl rfl,
   (xo_c1_bug ⟨"move", some "a", some "g", some [0, 0]⟩).2 rfl rfl rfl rfl⟩

/-- C2 (modelled from the spec, section 4.3; the check loop is absent from
src/): a monitor that is not yet closed, over any sequence of scheduled
checks with no inbound activity, fires the disconnect path exactly once if
some check lies beyond the timeout and never otherwise, and ends closed
exactly when some check fired. -/
theorem xo_c2_heartbeat_once (m : HbMonitor) (times : List Nat)
    (h : m.closed = false) :
    (hbRunChecks m times).2
        = (if times.any (fun t => hbTimeoutUnits < t - m.lastSeen) then 1 else 0) ∧
    (hbRunChecks m times).1.closed
        = times.any (fun t => hbTimeoutUnits < t - m.lastSeen) := by
  induction times with
  | nil => simp [hbRunChecks, h]
  | cons t ts ih =>
    by_cases hf : hbTimeoutUnits < t - m.lastSeen
    · have hcheck : hbCheck m t = ({ m with closed := true }, true) := by
        simp [hbCheck, h, hf]
      have hrest := hbRunChecks_closed { m with closed := true } ts rfl
      constructor <;> simp [hbRunChecks, hcheck, hrest, hf]
    · have hcheck : hbCheck m t = (m, false) := by
        simp [hbCheck, h, hf]
      constructor <;> simp [hbRunChecks, hcheck, hf, ih.1, ih.2]

/-- Witness for C2: from last-seen 0, checks at times 5, 12, 20 fire the
disconnect exactly once and leave the monitor closed. -/
theorem xo_c2_heartbeat_once_witness :
    (⟨0, false⟩ : HbMonitor).closed = false ∧
    (hbRunChecks ⟨0, false⟩ [5, 12, 20]).2 = 1 ∧
    (hbRunChecks ⟨0, false⟩ [5, 12, 20]).1.closed = true := by
  have h := xo_c2_heartbeat_once ⟨0, false⟩ [5, 12, 20] rfl
  exact ⟨rfl, h.1.trans (by decide), h.2.trans (by decide)⟩

/-- C3: refuted by the source.  A close frame only echoes a close reply and
sends no command, the shutdown hook (src lines 277-280) signals a oneshot
whose receiver was dropped, and no call site ever sends
`ServerMessage::Disconnect`; so after a connect followed by connection
termination the player is still registered.  The third conjunct shows the
`Disconnect` handler itself would perform the removal the claim describes,
were it ever issued. -/
theorem xo_c3_bug :
    frameService Frame.Close = some (some WsReply.Close, false) ∧
    (run initialServer [ServerMessage.Connect "p"]).map GameServer.sessions
      = some ["p"] ∧
    ((⟨["p"], fun _ => none⟩ : GameServer).handle
        (ServerMessage.Disconnect "p")).map (fun pr => pr.1.sessions)
      = some [] :=
  ⟨rfl, rfl, rfl⟩

/-- C5: refuted by the source.  A member whose turn it is, moving to the
out-of-bounds position [3, 0], drives `game.board[*row][*col]` into an
unchecked out-of-range index: the coordinator panics (no `InvalidMove`
event) and its loop aborts, so a later command on the same queue is never
processed. -/
theorem xo_c5_bug :
    sC5.handle (ServerMessage.MakeMove "X" "g" [3, 0]) = none ∧
    run sC5 [ServerMessage.MakeMove "X" "g" [3, 0],
             ServerMessage.JoinGame "a" "g"] = none :=
  ⟨rfl, rfl⟩

/-- C6: counterexample.  An `Error` event and an `Id` event drained from a
player's outbound queue hit the write loop's catch-all arm and produce no
wire frame at all. -/
theorem xo_c6_counterexample :
    encodeOutbound (ClientMessage.Error "Game is full") = none ∧
    encodeOutbound (ClientMessage.Id "7f") = none :=
  ⟨rfl, rfl⟩

/-- C6 as amended: the write loop serializes `GameState` to the room JSON
and `YourTurn` to the turn-notice text, and silently discards every `Id`
and `Error` event. -/
theorem xo_c6_write_loop : ∀ (r : Room) (b : Bool) (i e : String),
    encodeOutbound (ClientMessage.GameState r) = some (roomToJson r) ∧
    encodeOutbound (ClientMessage.YourTurn b) = some (turnJson b) ∧
    encodeOutbound (ClientMessage.Id i) = none ∧
    encodeOutbound (ClientMessage.Error e) = none :=
  fun _ _ _ _ => ⟨rfl, rfl, rfl, rfl⟩

/-- C7: counterexample.  In a two-member room whose members are `a` and `b`
(both connected, neither named `X`) with the turn flag set, the broadcast
delivers a turn notice with `is_turn = true` to nobody: the role test
compares the member id to the literal string `X`. -/
theorem xo_c7_counterexample :
    roomNoX.players.length = 2 ∧ roomNoX.players.Nodup ∧ "a" ≠ "b" ∧
    (GameServer.notify_game_state ⟨["a", "b"], fun _ => none⟩ roomNoX).countP
        (fun pr => decide (pr.2 = ClientMessage.YourTurn true)) = 0 := by
  refine ⟨rfl, by decide, by decide, rfl⟩

/-- C7 as amended: a broadcast to a two-member room delivers `is_turn = true`
to exactly one member precisely when exactly one of the two member ids is the
literal string `X` — the code derives the role by comparing the player id to
`X`, so the claim holds for such pairs (whatever the turn flag), not for
every pair of distinct ids. -/
theorem xo_c7_turn_notice (s : GameServer) (game : Room) (p q : String)
    (hmem : game.players = [p, q]) (hx : (p == "X") ≠ (q == "X"))
    (hp : p ∈ s.sessions) (hq : q ∈ s.sessions) :
    (s.notify_game_state game).countP
      (fun pr => decide (pr.2 = ClientMessage.YourTurn true)) = 1 := by
  unfold GameServer.notify_game_state GameServer.send_to_player
  rw [hmem]
  simp only [List.foldr, if_pos hp, if_pos hq]
  simp only [List.countP_append, List.countP_cons, List.countP_nil,
    List.singleton_append, decide_eq_true_eq]
  cases hpx : p == "X" <;> cases hqx : q == "X" <;>
    cases hxt : game.x_turn <;> simp_all

/-- Witness for C7 at a concrete room with members `X` and `o`. -/
theorem xo_c7_turn_notice_witness :
    (GameServer.notify_game_state ⟨["X", "o"], fun _ => none⟩
        ⟨"g", ["X", "o"], boardBlank, true⟩).countP
      (fun pr => decide (pr.2 = ClientMessage.YourTurn true)) = 1 :=
  xo_c7_turn_notice ⟨["X", "o"], fun _ => none⟩ ⟨"g", ["X", "o"], boardBlank, true⟩
    "X" "o" rfl (by decide) (by decide) (by decide)

/-- C4: counterexample.  With one connected player `a` and no room `g`, the
`MakeMove` on the unknown room produces no event at all (in particular no
`NotInGame` error to the requester): the `if let Some(game)` has no else
branch. -/
theorem xo_c4_counterexample :
    sC4.handle (ServerMessage.MakeMove "a" "g" [0, 0]) = some (sC4, []) :=
  rfl

/-- C4 as amended: a `MakeMove` naming an unknown room is silently ignored
(no event to anyone, no state change); a `MakeMove` by a connected
non-member of an existing room sends `Not in game` to the requester only,
also leaving the state unchanged. -/
theorem xo_c4_not_in_game (s : GameServer) (p g : String) (pos : List Nat)
    (room : Room) :
    (s.games g = none →
      s.handle (ServerMessage.MakeMove p g pos) = some (s, [])) ∧
    (s.games g = some room → p ∉ room.players → p ∈ s.sessions →
      s.handle (ServerMessage.MakeMove p g pos)
        = some (s, [(p, ClientMessage.Error "Not in game")])) := by
  constructor
  · intro hg
    simp [GameServer.handle, hg]
  · intro hg hmem hp
    simp [GameServer.handle, hg, hmem, GameServer.send_to_player, hp]

/-- Witness for C4: the unknown-room part at `sC4`, and the non-member part
at a state where `z` is connected but not a member of room `g`. -/
theorem xo_c4_not_in_game_witness :
    sC4.handle (ServerMessage.MakeMove "a" "g" [1, 1]) = some (sC4, []) ∧
    (⟨["X", "o", "z"], fun g => if g = "g" then some roomOccupied else none⟩ :
        GameServer).handle (ServerMessage.MakeMove "z" "g" [0, 1])
      = some (⟨["X", "o", "z"], fun g => if g = "g" then some roomOccupied else none⟩,
              [("z", ClientMessage.Error "Not in game")]) :=
  ⟨(xo_c4_not_in_game sC4 "a" "g" [1, 1] roomOccupied).1 rfl,
   (xo_c4_not_in_game ⟨["X", "o", "z"], fun g => if g = "g" then some roomOccupied else none⟩
      "z" "g" [0, 1] roomOccupied).2 rfl (by decide) (by decide)⟩

/-- Helper: one successful `handle` step, viewed from a room that already
exists.  The room survives (rooms are never deleted), its turn flag flips
exactly when the command is an accepted move on it, and none of its
non-empty cells changes. -/
lemma handle_games_step (s s₁ : GameServer) (out : List (String × ClientMessage))
    (c : ServerMessage) (g : String) (room : Room)
    (hh : s.handle c = some (s₁, out)) (hg : s.games g = some room) :
    ∃ room₁ : Room, s₁.games g = some room₁ ∧
      room₁.x_turn = Bool.xor room.x_turn (acceptedMove s g c) ∧
      ∀ r c' v, cellAt room.board r c' = some v → v ≠ "_" →
        cellAt room₁.board r c' = some v := by
  cases c with
  | Connect id =>
      simp only [GameServer.handle, Option.some.injEq, Prod.mk.injEq] at hh
      obtain ⟨hs, -⟩ := hh
      refine ⟨room, ?_, by simp [acceptedMove], fun _ _ _ hv _ => hv⟩
      rw [← hs]
      exact hg
  | Disconnect id =>
      simp only [GameServer.handle, Option.some.injEq, Prod.mk.injEq] at hh
      obtain ⟨hs, -⟩ := hh
      refine ⟨{ room with players := room.players.erase id }, ?_,
        by simp [acceptedMove], fun _ _ _ hv _ => hv⟩
      rw [← hs]
      simp [hg]
  | JoinGame pid gid =>
      simp only [GameServer.handle] at hh
      by_cases hgg : g = gid
      · subst hgg
        rw [hg] at hh
        simp only [Option.getD_some] at hh
        split at hh
        · simp only [Option.some.injEq, Prod.mk.injEq] at hh
          obtain ⟨hs, -⟩ := hh
          refine ⟨{ room with players := room.players.insert pid }, ?_,
            by simp [acceptedMove], fun _ _ _ hv _ => hv⟩
          rw [← hs]
          simp
        · simp only [Option.some.injEq, Prod.mk.injEq] at hh
          obtain ⟨hs, -⟩ := hh
          refine ⟨room, ?_, by simp [acceptedMove], fun _ _ _ hv _ => hv⟩
          rw [← hs]
          exact hg
      · split at hh <;>
          (simp only [Option.some.injEq, Prod.mk.injEq] at hh
           obtain ⟨hs, -⟩ := hh
           refine ⟨room, ?_, by simp [acceptedMove], fun _ _ _ hv _ => hv⟩
           rw [← hs])
        · simp [hgg, hg]
        · exact hg
  | MakeMove pid gid pos =>
      cases hsg : s.games gid with
      | none =>
          simp only [GameServer.handle, hsg, Option.some.injEq, Prod.mk.injEq] at hh
          obtain ⟨hs, -⟩ := hh
          refine ⟨room, ?_, by simp [acceptedMove, hsg], fun _ _ _ hv _ => hv⟩
          rw [← hs]
          exact hg
      | some game =>
          by_cases hmem : pid ∈ game.players
          · cases hturn : (game.x_turn == (pid == "X")) with
            | false =>
                simp only [GameServer.handle, hsg, hmem, if_true, hturn,
                  Bool.false_eq_true, if_false, Option.some.injEq,
                  Prod.mk.injEq] at hh
                obtain ⟨hs, -⟩ := hh
                refine ⟨room, ?_, by simp [acceptedMove, hsg, hturn],
                  fun _ _ _ hv _ => hv⟩
                rw [← hs]
                exact hg
            | true =>
                obtain - | ⟨row, - | ⟨col, - | ⟨x, xs⟩⟩⟩ := pos
                · simp only [GameServer.handle, hsg, hmem, if_true, hturn,
                    Option.some.injEq, Prod.mk.injEq] at hh
                  obtain ⟨hs, -⟩ := hh
                  refine ⟨room, ?_, by simp [acceptedMove, hsg],
                    fun _ _ _ hv _ => hv⟩
                  rw [← hs]
                  exact hg
                · simp only [GameServer.handle, hsg, hmem, if_true, hturn,
                    Option.some.injEq, Prod.mk.injEq] at hh
                  obtain ⟨hs, -⟩ := hh
                  refine ⟨room, ?_, by simp [acceptedMove, hsg],
                    fun _ _ _ hv _ => hv⟩
                  rw [← hs]
                  exact hg
                · cases hrow : game.board.get? row with
                  | none =>
                      simp only [GameServer.handle, hsg, hmem, if_true, hturn,
                        hrow] at hh
                      exact Option.noConfusion hh
                  | some r =>
                      cases hcol : r.get? col with
                      | none =>
                          simp only [GameServer.handle, hsg, hmem, if_true,
                            hturn, hrow, hcol] at hh
                          exact Option.noConfusion hh
                      | some cell =>
                          have hca : cellAt game.board row col = some cell := by
                            simp only [cellAt]
                            rw [hrow]
                            simpa using hcol
                          by_cases hcell : cell = "_"
                          · -- success: the cell is written and the flag flips
                            simp only [GameServer.handle, hsg, hmem, if_true,
                              hturn, hrow, hcol, hcell, ne_eq,
                              not_true_eq_false, if_false,
                              Option.some.injEq, Prod.mk.injEq] at hh
                            obtain ⟨hs, -⟩ := hh
                            by_cases hgg : g = gid
                            · subst hgg
                              rw [hsg] at hg
                              have hgame : game = room := Option.some.inj hg
                              subst hgame
                              refine ⟨{ game with
                                  board := game.board.set row
                                    (r.set col (if (pid == "X") then "X" else "O")),
                                  x_turn := !game.x_turn }, ?_, ?_, ?_⟩
                              · rw [← hs]
                                simp
                              · simp [acceptedMove, hsg, hmem, hturn, hca, hcell]
                              · intro rr cc v hv hvne
                                simp only [cellAt] at hv ⊢
                                by_cases hr : rr = row
                                · subst hr
                                  rw [hrow] at hv
                                  simp only [Option.some_bind] at hv
                                  have hlt : rr < game.board.length :=
                                    (List.get?_eq_some.mp hrow).1
                                  rw [List.get?_set_eq_of_lt _ hlt]
                                  simp only [Option.some_bind]
                                  by_cases hc : cc = col
                                  · subst hc
                                    rw [hcol] at hv
                                    have : v = cell := (Option.some.inj hv).symm
                                    exact absurd (hcell ▸ this ▸ rfl) hvne
                                  · rw [List.get?_set_ne _ _
                                      (fun hcon => hc hcon.symm)]
                                    exact hv
                                · rw [List.get?_set_ne _ _
                                    (fun hcon => hr hcon.symm)]
                                  exact hv
                            · refine ⟨room, ?_, ?_, fun _ _ _ hv _ => hv⟩
                              · rw [← hs]
                                simp [hgg, hg]
                              · simp [acceptedMove, hsg, Ne.symm hgg]
                          · -- occupied cell: rejected, state unchanged
                            simp only [GameServer.handle, hsg, hmem, if_true,
                              hturn, hrow, hcol, hcell, ne_eq,
                              not_false_eq_true, if_true, Option.some.injEq,
                              Prod.mk.injEq] at hh
                            obtain ⟨hs, -⟩ := hh
                            have hbe : (cell == "_") = false := by
                              simpa using hcell
                            refine ⟨room, ?_,
                              by simp [acceptedMove, hsg, hca, hbe],
                              fun _ _ _ hv _ => hv⟩
                            rw [← hs]
                            exact hg
                · simp only [GameServer.handle, hsg, hmem, if_true, hturn,
                    Option.some.injEq, Prod.mk.injEq] at hh
                  obtain ⟨hs, -⟩ := hh
                  refine ⟨room, ?_, by simp [acceptedMove, hsg],
                    fun _ _ _ hv _ => hv⟩
                  rw [← hs]
                  exact hg
          · simp only [GameServer.handle, hsg, hmem, if_false,
              Option.some.injEq, Prod.mk.injEq] at hh
            obtain ⟨hs, -⟩ := hh
            refine ⟨room, ?_, by simp [acceptedMove, hsg, hmem],
              fun _ _ _ hv _ => hv⟩
            rw [← hs]
            exact hg

/-- Helper: parity of a count prefixed by one optional increment, as a
boolean exclusive-or. -/
lemma count_parity (a : Bool) (n : Nat) :
    decide ((((if a then 1 else 0) : Nat) + n) % 2 = 1)
      = Bool.xor a (decide (n % 2 = 1)) := by
  cases a <;> rcases Nat.mod_two_eq_zero_or_one n with h | h <;>
    simp [Nat.add_mod, h]

/-- C9: along any panic-free run, a room present at the start is still
present at the end and its turn flag equals the initial flag XORed with the
parity of the number of accepted moves on that room; in particular each
accepted move flips it once and every rejected or unrelated command leaves
it unchanged. -/
theorem xo_c9_turn_flag (s sf : GameServer) (cs : List ServerMessage)
    (g : String) (room : Room)
    (hrun : run s cs = some sf) (hg : s.games g = some room) :
    ∃ room₁ : Room, sf.games g = some room₁ ∧
      room₁.x_turn
        = Bool.xor room.x_turn (decide (acceptedCount s g cs % 2 = 1)) := by
  induction cs generalizing s room with
  | nil =>
      simp only [run, Option.some.injEq] at hrun
      subst hrun
      exact ⟨room, hg, by simp [acceptedCount]⟩
  | cons c cs ih =>
      simp only [run] at hrun
      cases hstep : s.handle c with
      | none =>
          rw [hstep] at hrun
          exact Option.noConfusion hrun
      | some p =>
          rw [hstep] at hrun
          obtain ⟨room₁, hg₁, hx₁, -⟩ :=
            handle_games_step s p.1 p.2 c g room hstep hg
          obtain ⟨room₂, hg₂, hx₂⟩ := ih p.1 room₁ hrun hg₁
          refine ⟨room₂, hg₂, ?_⟩
          rw [hx₂, hx₁, Bool.xor_assoc]
          congr 1
          simp [acceptedCount, hstep, count_parity]

/-- Witness for C9: from `sC5` the single accepted move `X (0,0)` flips the
flag from true to false. -/
theorem xo_c9_turn_flag_witness :
    ((run sC5 [ServerMessage.MakeMove "X" "g" [0, 0]]).map
        (fun sf => (sf.games "g").map Room.x_turn)) = some (some false) := by
  obtain ⟨room₁, h₁, h₂⟩ :=
    xo_c9_turn_flag sC5 sC5after [ServerMessage.MakeMove "X" "g" [0, 0]] "g"
      ⟨"g", ["X"], boardBlank, true⟩ rfl rfl
  have hrunEq : run sC5 [ServerMessage.MakeMove "X" "g" [0, 0]] = some sC5after :=
    rfl
  rw [hrunEq, Option.map_some', h₁, Option.map_some', h₂]
  rfl

/-- Helper: along any panic-free run, a non-empty cell of an existing room
keeps its value. -/
lemma run_cell_persists (s sf : GameServer) (cs : List ServerMessage)
    (g : String) (room : Room) (row col : Nat) (v : String)
    (hrun : run s cs = some sf) (hg : s.games g = some room)
    (hv : cellAt room.board row col = some v) (hne : v ≠ "_") :
    ∃ room₁, sf.games g = some room₁ ∧ cellAt room₁.board row col = some v := by
  induction cs generalizing s room with
  | nil =>
      simp only [run, Option.some.injEq] at hrun
      subst hrun
      exact ⟨room, hg, hv⟩
  | cons c cs ih =>
      simp only [run] at hrun
      cases hstep : s.handle c with
      | none =>
          rw [hstep] at hrun
          exact Option.noConfusion hrun
      | some p =>
          rw [hstep] at hrun
          obtain ⟨room₁, hg₁, -, hcells⟩ :=
            handle_games_step s p.1 p.2 c g room hstep hg
          exact ih p.1 room₁ hrun hg₁ (hcells row col v hv hne)

/-- C10: counterexample.  In `roomOccupied` the cell (0,0) already holds
`X` and both `X` and `o` are members, but the turn belongs to `o`; the
member `X` moving onto the occupied cell is rejected with `Not your turn`,
not with the `Invalid move` error the claim promises to every member. -/
theorem xo_c10_counterexample :
    sC10.handle (ServerMessage.MakeMove "X" "g" [0, 0])
      = some (sC10, [("X", ClientMessage.Error "Not your turn")]) ∧
    ClientMessage.Error "Not your turn" ≠ ClientMessage.Error "Invalid move" :=
  ⟨rfl, by decide⟩

/-- C10 as amended: a move onto an occupied cell by a member leaves the
whole coordinator state unchanged whatever the requester (with the
`Invalid move` error delivered exactly when the requester also holds the
turn and is connected), and a non-empty cell keeps its value across every
panic-free run: a cell, once set, is never overwritten. -/
theorem xo_c10_occupied_cell (s : GameServer) (g p : String) (room : Room)
    (row col : Nat) (cell : String)
    (hg : s.games g = some room)
    (hcell : cellAt room.board row col = some cell) (hne : cell ≠ "_") :
    (p ∈ room.players →
      (∃ out, s.handle (ServerMessage.MakeMove p g [row, col]) = some (s, out)) ∧
      (room.x_turn = (p == "X") → p ∈ s.sessions →
        s.handle (ServerMessage.MakeMove p g [row, col])
          = some (s, [(p, ClientMessage.Error "Invalid move")]))) ∧
    (∀ (sf : GameServer) (cs : List ServerMessage), run s cs = some sf →
      ∃ room₁, sf.games g = some room₁ ∧
        cellAt room₁.board row col = some cell) := by
  have hrc : ∃ r, room.board.get? row = some r ∧ r.get? col = some cell := by
    simp only [cellAt] at hcell
    cases hr : room.board.get? row with
    | none => rw [hr] at hcell; exact Option.noConfusion hcell
    | some r =>
        rw [hr] at hcell
        exact ⟨r, rfl, by simpa using hcell⟩
  obtain ⟨r, hr, hc⟩ := hrc
  rw [List.get?_eq_getElem?] at hr hc
  constructor
  · intro hmem
    constructor
    · cases hturn : (room.x_turn == (p == "X")) with
      | true =>
          exact ⟨s.send_to_player p (ClientMessage.Error "Invalid move"),
            by simp [GameServer.handle, hg, hmem, hturn, hr, hc, hne]⟩
      | false =>
          exact ⟨s.send_to_player p (ClientMessage.Error "Not your turn"),
            by simp [GameServer.handle, hg, hmem, hturn]⟩
    · intro hxt hpsess
      have hturn : (room.x_turn == (p == "X")) = true := by simp [hxt]
      simp [GameServer.handle, hg, hmem, hturn, hr, hc, hne,
        GameServer.send_to_player, hpsess]
  · intro sf cs hrun
    exact run_cell_persists s sf cs g room row col cell hrun hg hcell hne

/-- Witness for C10 at `sC10`: the off-turn member's request keeps the
state, the on-turn member receives `Invalid move`, and after the accepted
move `o (0,1)` the cell (0,0) still holds `X`. -/
theorem xo_c10_occupied_cell_witness :
    ((sC10.handle (ServerMessage.MakeMove "X" "g" [0, 0])).map Prod.fst
      = some sC10) ∧
    sC10.handle (ServerMessage.MakeMove "o" "g" [0, 0])
      = some (sC10, [("o", ClientMessage.Error "Invalid move")]) ∧
    ((run sC10 [ServerMessage.MakeMove "o" "g" [0, 1]]).map
        (fun sf => (sf.games "g").map (fun room => cellAt room.board 0 0)))
      = some (some (some "X")) := by
  have h := xo_c10_occupied_cell sC10 "g" "X" roomOccupied 0 0 "X"
    rfl rfl (by decide)
  have h₂ := xo_c10_occupied_cell sC10 "g" "o" roomOccupied 0 0 "X"
    rfl rfl (by decide)
  refine ⟨?_, ?_, ?_⟩
  · obtain ⟨out, hout⟩ := (h.1 (by decide)).1
    rw [hout]
    rfl
  · exact (h₂.1 (by decide)).2 (by decide) (by decide)
  · obtain ⟨room₁, hg₁, hc₁⟩ :=
      h.2 sC10after [ServerMessage.MakeMove "o" "g" [0, 1]] rfl
    have hrunEq : run sC10 [ServerMessage.MakeMove "o" "g" [0, 1]]
        = some sC10after := rfl
    rw [hrunEq, Option.map_some', hg₁, Option.map_some', hc₁]

/-- Helper: one successful `handle` step, viewed from a room that exists
afterwards.  Its member list is that of a room that already existed (as is,
with one id erased, or — when the room had spare capacity — with one id
inserted), or the room was just created by a join and holds exactly one
member. -/
lemma handle_players_step (s s₁ : GameServer)
    (out : List (String × ClientMessage)) (c : ServerMessage)
    (g : String) (room₁ : Room)
    (hh : s.handle c = some (s₁, out)) (hg₁ : s₁.games g = some room₁) :
    (∃ room₀, s.games g = some room₀ ∧
       (room₁.players = room₀.players ∨
        (∃ i, room₁.players = room₀.players.erase i) ∨
        (room₀.players.length < 2 ∧
          ∃ p, room₁.players = room₀.players.insert p))) ∨
    (∃ p, room₁.players = [p]) := by
  cases c with
  | Connect id =>
      simp only [GameServer.handle, Option.some.injEq, Prod.mk.injEq] at hh
      obtain ⟨hs, -⟩ := hh
      rw [← hs] at hg₁
      exact Or.inl ⟨room₁, hg₁, Or.inl rfl⟩
  | Disconnect id =>
      simp only [GameServer.handle, Option.some.injEq, Prod.mk.injEq] at hh
      obtain ⟨hs, -⟩ := hh
      rw [← hs] at hg₁
      simp only at hg₁
      cases hsg : s.games g with
      | none => rw [hsg] at hg₁; exact Option.noConfusion hg₁
      | some room₀ =>
          rw [hsg] at hg₁
          simp only [Option.map_some', Option.some.injEq] at hg₁
          exact Or.inl ⟨room₀, rfl, Or.inr (Or.inl ⟨id, by rw [← hg₁]⟩)⟩
  | JoinGame pid gid =>
      simp only [GameServer.handle] at hh
      by_cases hgg : g = gid
      · subst hgg
        cases hsg : s.games g with
        | none =>
            rw [hsg] at hh
            simp only [Option.getD_none] at hh
            split at hh
            · simp only [Option.some.injEq, Prod.mk.injEq] at hh
              obtain ⟨hs, -⟩ := hh
              rw [← hs] at hg₁
              simp at hg₁
              refine Or.inr ⟨pid, ?_⟩
              rw [← hg₁]
              simp [newRoom, List.insert_of_not_mem]
            · rename_i hnot
              exact absurd (by simp [newRoom]) hnot
        | some room₀ =>
            rw [hsg] at hh
            simp only [Option.getD_some] at hh
            split at hh
            · rename_i hlt
              simp only [Option.some.injEq, Prod.mk.injEq] at hh
              obtain ⟨hs, -⟩ := hh
              rw [← hs] at hg₁
              simp at hg₁
              exact Or.inl ⟨room₀, rfl,
                Or.inr (Or.inr ⟨hlt, pid, by rw [← hg₁]⟩)⟩
            · simp only [Option.some.injEq, Prod.mk.injEq] at hh
              obtain ⟨hs, -⟩ := hh
              rw [← hs] at hg₁
              have hr : room₀ = room₁ := Option.some.inj (hsg.symm.trans hg₁)
              exact Or.inl ⟨room₀, rfl, Or.inl (by rw [hr])⟩
      · split at hh <;>
          (simp only [Option.some.injEq, Prod.mk.injEq] at hh
           obtain ⟨hs, -⟩ := hh
           rw [← hs] at hg₁)
        · simp only [if_neg hgg] at hg₁
          exact Or.inl ⟨room₁, hg₁, Or.inl rfl⟩
        · exact Or.inl ⟨room₁, hg₁, Or.inl rfl⟩
  | MakeMove pid gid pos =>
      cases hsg : s.games gid with
      | none =>
          simp only [GameServer.handle, hsg, Option.some.injEq,
            Prod.mk.injEq] at hh
          obtain ⟨hs, -⟩ := hh
          rw [← hs] at hg₁
          exact Or.inl ⟨room₁, hg₁, Or.inl rfl⟩
      | some game =>
          by_cases hmem : pid ∈ game.players
          · cases hturn : (game.x_turn == (pid == "X")) with
            | false =>
                simp only [GameServer.handle, hsg, hmem, if_true, hturn,
                  Bool.false_eq_true, if_false, Option.some.injEq,
                  Prod.mk.injEq] at hh
                obtain ⟨hs, -⟩ := hh
                rw [← hs] at hg₁
                exact Or.inl ⟨room₁, hg₁, Or.inl rfl⟩
            | true =>
                obtain - | ⟨row, - | ⟨col, - | ⟨x, xs⟩⟩⟩ := pos
                · simp only [GameServer.handle, hsg, hmem, if_true, hturn,
                    Option.some.injEq, Prod.mk.injEq] at hh
                  obtain ⟨hs, -⟩ := hh
                  rw [← hs] at hg₁
                  exact Or.inl ⟨room₁, hg₁, Or.inl rfl⟩
                · simp only [GameServer.handle, hsg, hmem, if_true, hturn,
                    Option.some.injEq, Prod.mk.injEq] at hh
                  obtain ⟨hs, -⟩ := hh
                  rw [← hs] at hg₁
                  exact Or.inl ⟨room₁, hg₁, Or.inl rfl⟩
                · cases hrow : game.board.get? row with
                  | none =>
                      simp only [GameServer.handle, hsg, hmem, if_true, hturn,
                        hrow] at hh
                      exact Option.noConfusion hh
                  | some r =>
                      cases hcol : r.get? col with
                      | none =>
                          simp only [GameServer.handle, hsg, hmem, if_true,
                            hturn, hrow, hcol] at hh
                          exact Option.noConfusion hh
                      | some cell =>
                          by_cases hcell : cell = "_"
                          · simp only [GameServer.handle, hsg, hmem, if_true,
                              hturn, hrow, hcol, hcell, ne_eq,
                              not_true_eq_false, if_false,
                              Option.some.injEq, Prod.mk.injEq] at hh
                            obtain ⟨hs, -⟩ := hh
                            rw [← hs] at hg₁
                            by_cases hgg : g = gid
                            · subst hgg
                              simp at hg₁
                              refine Or.inl ⟨game, hsg, Or.inl ?_⟩
                              rw [← hg₁]
                            · simp only [if_neg hgg] at hg₁
                              exact Or.inl ⟨room₁, hg₁, Or.inl rfl⟩
                          · simp only [GameServer.handle, hsg, hmem, if_true,
                              hturn, hrow, hcol, hcell, ne_eq,
                              not_false_eq_true, if_true, Option.some.injEq,
                              Prod.mk.injEq] at hh
                            obtain ⟨hs, -⟩ := hh
                            rw [← hs] at hg₁
                            exact Or.inl ⟨room₁, hg₁, Or.inl rfl⟩
                · simp only [GameServer.handle, hsg, hmem, if_true, hturn,
                    Option.some.injEq, Prod.mk.injEq] at hh
                  obtain ⟨hs, -⟩ := hh
                  rw [← hs] at hg₁
                  exact Or.inl ⟨room₁, hg₁, Or.inl rfl⟩
          · simp only [GameServer.handle, hsg, hmem, if_false,
              Option.some.injEq, Prod.mk.injEq] at hh
            obtain ⟨hs, -⟩ := hh
            rw [← hs] at hg₁
            exact Or.inl ⟨room₁, hg₁, Or.inl rfl⟩

/-- Helper: one successful `handle` step preserves the room invariant that
every member list is duplicate-free with at most two entries. -/
lemma players_inv_step (s s₁ : GameServer)
    (out : List (String × ClientMessage)) (c : ServerMessage)
    (hh : s.handle c = some (s₁, out))
    (hinv : ∀ g room, s.games g = some room →
      room.players.Nodup ∧ room.players.length ≤ 2) :
    ∀ g room, s₁.games g = some room →
      room.players.Nodup ∧ room.players.length ≤ 2 := by
  intro g room₁ hg₁
  rcases handle_players_step s s₁ out c g room₁ hh hg₁ with
    ⟨room₀, hg₀, hcase⟩ | ⟨p, hp⟩
  · obtain ⟨hnd, hlen⟩ := hinv g room₀ hg₀
    rcases hcase with heq | ⟨i, heq⟩ | ⟨hlt, p, heq⟩
    · rw [heq]
      exact ⟨hnd, hlen⟩
    · rw [heq]
      have hsub := List.erase_sublist i room₀.players
      exact ⟨hnd.sublist hsub, le_trans hsub.length_le hlen⟩
    · rw [heq]
      refine ⟨hnd.insert, ?_⟩
      by_cases hpmem : p ∈ room₀.players
      · rw [List.insert_of_mem hpmem]
        exact hlen
      · rw [List.insert_of_not_mem hpmem]
        simp only [List.length_cons]
        omega
  · rw [hp]
    exact ⟨by simp, by simp⟩

/-- C8: in every state reachable from the initial one, every room's member
list is duplicate-free with at most two entries; and a `JoinGame` on a room
that already has two members adds nothing and sends `Game is full` to the
connected requester only. -/
theorem xo_c8_room_capacity :
    (∀ (cs : List ServerMessage) (s : GameServer) (g : String) (room : Room),
      run initialServer cs = some s → s.games g = some room →
      room.players.Nodup ∧ room.players.length ≤ 2) ∧
    (∀ (s : GameServer) (g p : String) (room : Room),
      s.games g = some room → room.players.length = 2 → p ∈ s.sessions →
      s.handle (ServerMessage.JoinGame p g)
        = some (s, [(p, ClientMessage.Error "Game is full")])) := by
  constructor
  · have main : ∀ (cs : List ServerMessage) (s₀ s : GameServer),
        run s₀ cs = some s →
        (∀ g room, s₀.games g = some room →
          room.players.Nodup ∧ room.players.length ≤ 2) →
        ∀ g room, s.games g = some room →
          room.players.Nodup ∧ room.players.length ≤ 2 := by
      intro cs
      induction cs with
      | nil =>
          intro s₀ s hrun hinv
          simp only [run, Option.some.injEq] at hrun
          subst hrun
          exact hinv
      | cons c cs ih =>
          intro s₀ s hrun hinv
          simp only [run] at hrun
          cases hstep : s₀.handle c with
          | none =>
              rw [hstep] at hrun
              exact Option.noConfusion hrun
          | some p =>
              rw [hstep] at hrun
              exact ih p.1 s hrun (players_inv_step s₀ p.1 p.2 c hstep hinv)
    intro cs s g room hrun hg
    exact main cs initialServer s hrun
      (fun g room hg => Option.noConfusion hg) g room hg
  · intro s g p room hg hlen hp
    have hnlt : ¬ room.players.length < 2 := by omega
    simp [GameServer.handle, hg, hnlt, GameServer.send_to_player, hp]

/-- Witness for C8: the room reached by one join holds one member without
duplicates, and a join on the full room of `sFull` is refused with
`Game is full` to the requester `c` only. -/
theorem xo_c8_room_capacity_witness :
    ((⟨"g", ["a"], boardBlank, true⟩ : Room).players.Nodup ∧
      (⟨"g", ["a"], boardBlank, true⟩ : Room).players.length ≤ 2) ∧
    sFull.handle (ServerMessage.JoinGame "c" "g")
      = some (sFull, [("c", ClientMessage.Error "Game is full")]) :=
  ⟨xo_c8_room_capacity.1 [ServerMessage.JoinGame "a" "g"] sC8after "g"
      ⟨"g", ["a"], boardBlank, true⟩ rfl rfl,
   xo_c8_room_capacity.2 sFull "g" "c" ⟨"g", ["a", "b"], boardBlank, true⟩
      rfl rfl (by decide)⟩
